import Mathlib

/-!
Verification development for the CycleGAN voice-conversion training
orchestrator (`train.py`).  The training script is shallowly embedded:

* the hyperparameters and the per-iteration learning-rate / loss-weight
  schedule (lines 17-28 and 84-105 of `train.py`) become a pure state
  machine on exact rationals (`SchedState`, `schedUpdate`);
* the effectful body of `train` (preprocessing, statistics persistence,
  checkpointing, validation) becomes an explicit event trace
  (`Event`, `trainTraceWith`);
* the `argparse` surface of `__main__` becomes `trainArgSpecs` /
  `parseArgs`;
* `np.nan_to_num` on the resynthesized waveform becomes `nan_to_num`
  over a symbolic IEEE-754 sample type (`Sample`).

Machine floats carry no precision-relevant arithmetic in the verified
claims (before the decay threshold no arithmetic touches the rates, and
after it only comparisons against the floor are claimed), so rationals
model them faithfully here.
-/

namespace EVC

/-! ## Hyperparameters (train.py lines 17-28) -/

/-- Number of epochs, hard-coded in `train` (line 18). -/
def num_epochs : ℕ := 500

/-- Mini-batch size, hard-coded to 1 (line 19). -/
def mini_batch_size : ℕ := 1

/-- Initial generator learning rate, 0.0002 (line 20). -/
def generator_learning_rate : ℚ := 2 / 10000

/-- Per-iteration generator learning-rate decrement (line 21). -/
def generator_learning_rate_decay : ℚ := generator_learning_rate / 5000000

/-- Initial discriminator learning rate, 0.0001 (line 22). -/
def discriminator_learning_rate : ℚ := 1 / 10000

/-- Per-iteration discriminator learning-rate decrement (line 23). -/
def discriminator_learning_rate_decay : ℚ := discriminator_learning_rate / 5000000

/-- Initial identity-loss weight, 5 (line 28). -/
def lambda_identity : ℚ := 5

/-- The learning-rate floor 0.00001 appearing in the `max` of lines 91-92. -/
def lr_floor : ℚ := 1 / 100000

/-! ## The per-iteration schedule (train.py lines 84-105) -/

/-- The mutable scheduling variables of `train`: the two learning rates and
the identity-loss weight, reassigned inside the iteration loop. -/
structure SchedState where
  generator_lr : ℚ
  discriminator_lr : ℚ
  identity_weight : ℚ
deriving DecidableEq

/-- The values of the scheduling variables when the epoch loop is entered
(lines 20, 22, 28). -/
def initSched : SchedState :=
  { generator_lr := generator_learning_rate
    discriminator_lr := discriminator_learning_rate
    identity_weight := lambda_identity }

/-- One pass through lines 88-92 of `train.py`: when the global iteration
counter exceeds 100000, the identity weight is set to 0.5 and both learning
rates are decremented, clamped from below at 0.00001; otherwise nothing
changes. -/
def schedUpdate (num_iters : ℕ) (s : SchedState) : SchedState :=
  let s1 := if num_iters > 100000 then { s with identity_weight := 1/2 } else s
  if num_iters > 100000 then
    { s1 with
      generator_lr := max lr_floor (s1.generator_lr - generator_learning_rate_decay)
      discriminator_lr := max lr_floor (s1.discriminator_lr - discriminator_learning_rate_decay) }
  else s1

/-- The global iteration counter of line 85:
`num_iterations = n_samples // mini_batch_size * epoch + i`. -/
def num_iterations (n_samples epoch i : ℕ) : ℕ :=
  n_samples / mini_batch_size * epoch + i

/-- The sequence of global iteration counters produced by the nested loops of
lines 75-85, for a run of `numEpochs` epochs in which `sample_train_data`
yields `ns e` segments in epoch `e` (line 82: `n_samples = dataset_A.shape[0]`). -/
def iterationCounters (ns : ℕ → ℕ) : ℕ → List ℕ
  | 0 => []
  | e + 1 =>
      iterationCounters ns e ++
        (List.range (ns e / mini_batch_size)).map (num_iterations (ns e) e)

/-- Running the schedule over a list of iteration counters, recording for each
iteration the counter together with the scheduler state passed to
`model.train` at lines 98-105 (the state after the update of lines 88-92). -/
def schedPairs : List ℕ → SchedState → List (ℕ × SchedState)
  | [], _ => []
  | c :: cs, s =>
      let s1 := schedUpdate c s
      (c, s1) :: schedPairs cs s1

/-! ## Path helpers (os.path) -/

/-- os.path.join, for the path shapes this program builds. -/
def osPathJoin (a b : String) : String :=
  if b.startsWith "/" then b
  else if a = "" then b
  else if a.endsWith "/" then a ++ b
  else a ++ "/" ++ b

/-- os.path.basename: the component after the last slash. -/
def osPathBasename (s : String) : String :=
  (s.splitOn "/").getLastD s

/-! ## The effectful body of train as an event trace (train.py lines 12-137)

The call to `train` is embedded as the ordered list of externally visible
actions it performs.  Pure in-memory computations (transposes, normalization
arithmetic) are elided; every file-system access, model invocation and the
scheduling-relevant loop structure appear as events in source order.  The
per-epoch segment count delivered by `sample_train_data` (line 81-82) and the
listing of the validation directory (line 119) are environment inputs and are
passed as parameters `ns` and `valFiles`. -/

/-- The parameters of `train` (train.py line 12).  `validation_A_dir` is an
`Option` because `__main__` maps the string none to Python `None`
(line 171-172); `n_frames` is the integer `--num_f` value. -/
structure TrainConfig where
  train_A_dir : String
  train_B_dir : String
  model_dir : String
  model_name : String
  random_seed : ℤ
  validation_A_dir : Option String
  validation_B_dir : Option String
  output_dir : String
  tensorboard_log_dir : String
  n_frames : ℤ
deriving DecidableEq

/-- Externally visible actions of `train`, in source order. -/
inductive Event where
  | loadWavs (wav_dir : String)
  | worldEncodeData (domain : String)
  | logf0Statistics (domain : String)
  | codedSpsFit (domain : String)
  | makedirs (dir : String)
  | savez (path : String) (fields : List String)
  | modelLoad (path : String)
  | sampleTrainData (epoch : ℕ)
  | trainStep (epoch : ℕ) (i : ℕ) (counter : ℕ)
  | modelSave (directory : String) (filename : String)
  | printGeneratingValidation (epoch : ℕ)
  | loadAudio (path : String)
  | modelTest (epoch : ℕ) (file : String) (direction : String)
  | sfWrite (path : String)
deriving DecidableEq

/-- The four keyword arguments of both `np.savez` calls (lines 59-60). -/
def statFields : List String := ["mean_A", "std_A", "mean_B", "std_B"]

/-- The validation output directory of line 63:
`os.path.join(output_dir, 'converted_A' + str(n_frames))`. -/
def validation_A_output_dir (cfg : TrainConfig) : String :=
  osPathJoin cfg.output_dir ("converted_A" ++ toString cfg.n_frames)

/-- The per-epoch checkpoint filename of line 110: `str(n_frames) + '_' + model_name`. -/
def perEpochCheckpointName (cfg : TrainConfig) : String :=
  toString cfg.n_frames ++ "_" ++ cfg.model_name

/-- One validation pass over the files of `validation_A_dir`
(train.py lines 118-135): the banner print, then per file the audio load,
the A-to-B model inference, and the waveform write under the
epoch-and-filename derived output path. -/
def validationPassTrace (cfg : TrainConfig) (dir : String) (valFiles : List String)
    (epoch : ℕ) : List Event :=
  Event.printGeneratingValidation epoch ::
    (valFiles.map (fun f =>
      [Event.loadAudio (osPathJoin dir f),
       Event.modelTest epoch f "A2B",
       Event.sfWrite (osPathJoin (validation_A_output_dir cfg)
         (toString epoch ++ "_" ++ osPathBasename f))])).flatten

/-- The guard of line 117: the pass runs only when `validation_A_dir` is not
`None` and the epoch index is a multiple of 5. -/
def epochValidationTrace (cfg : TrainConfig) (valFiles : List String)
    (epoch : ℕ) : List Event :=
  match cfg.validation_A_dir with
  | some dir => if epoch % 5 = 0 then validationPassTrace cfg dir valFiles epoch else []
  | none => []

/-- One iteration of the epoch loop body (lines 75-135): sampling, the
training steps with their global counters, the unconditional per-epoch
checkpoint, and the guarded validation pass. -/
def epochTrace (cfg : TrainConfig) (ns : ℕ → ℕ) (valFiles : List String)
    (epoch : ℕ) : List Event :=
  Event.sampleTrainData epoch ::
    ((List.range (ns epoch / mini_batch_size)).map
        (fun i => Event.trainStep epoch i (num_iterations (ns epoch) epoch i))
      ++ [Event.modelSave cfg.model_dir (perEpochCheckpointName cfg)]
      ++ epochValidationTrace cfg valFiles epoch)

/-- The first `E` iterations of the epoch loop, concatenated in order. -/
def epochsTrace (cfg : TrainConfig) (ns : ℕ → ℕ) (valFiles : List String) :
    ℕ → List Event
  | 0 => []
  | e + 1 => epochsTrace cfg ns valFiles e ++ epochTrace cfg ns valFiles e

/-- Everything `train` does before the epoch loop (lines 38-73): corpus
loading, feature extraction, the two statistics fits per domain, creation of
the model directory, the two `np.savez` persistence calls, creation of the
validation output directory when validation is configured, and the
checkpoint load that happens exactly when `n_frames != 128` (lines 72-73). -/
def preTrainTrace (cfg : TrainConfig) : List Event :=
  [Event.loadWavs cfg.train_A_dir, Event.loadWavs cfg.train_B_dir,
   Event.worldEncodeData "A", Event.worldEncodeData "B",
   Event.logf0Statistics "A", Event.logf0Statistics "B",
   Event.codedSpsFit "A", Event.codedSpsFit "B",
   Event.makedirs cfg.model_dir,
   Event.savez (osPathJoin cfg.model_dir "logf0s_normalization.npz") statFields,
   Event.savez (osPathJoin cfg.model_dir "mcep_normalization.npz") statFields]
  ++ (match cfg.validation_A_dir with
      | some _ => [Event.makedirs (validation_A_output_dir cfg)]
      | none => [])
  ++ (if cfg.n_frames ≠ 128 then
        [Event.modelLoad (osPathJoin cfg.model_dir cfg.model_name)]
      else [])

/-- The complete trace of `train` for a run of `numEpochs` epochs: the
pre-loop work, the epoch loop, and the final checkpoint under the canonical
model name (line 137). -/
def trainTraceWith (numEpochs : ℕ) (cfg : TrainConfig) (ns : ℕ → ℕ)
    (valFiles : List String) : List Event :=
  preTrainTrace cfg ++ epochsTrace cfg ns valFiles numEpochs
    ++ [Event.modelSave cfg.model_dir cfg.model_name]

/-- The trace of `train` as shipped, with `num_epochs = 500` (line 18). -/
def trainTrace (cfg : TrainConfig) (ns : ℕ → ℕ) (valFiles : List String) :
    List Event :=
  trainTraceWith num_epochs cfg ns valFiles

/-! ## Event classifiers -/

def isTrainStepEv : Event → Bool
  | Event.trainStep .. => true
  | _ => false

def isSavezEv : Event → Bool
  | Event.savez .. => true
  | _ => false

def isModelLoadEv : Event → Bool
  | Event.modelLoad _ => true
  | _ => false

/-- Events that can only be emitted by the epoch-loop body. -/
def isEpochBodyEv : Event → Bool
  | Event.sampleTrainData _ => true
  | Event.trainStep .. => true
  | Event.modelSave .. => true
  | Event.printGeneratingValidation _ => true
  | Event.loadAudio _ => true
  | Event.modelTest .. => true
  | Event.sfWrite _ => true
  | _ => false

/-- Events belonging to a validation pass. -/
def isValidationEv : Event → Bool
  | Event.printGeneratingValidation _ => true
  | Event.loadAudio _ => true
  | Event.modelTest .. => true
  | Event.sfWrite _ => true
  | _ => false

/-- A model inference event whose direction is not the A-to-B direction. -/
def isModelTestNotA2B : Event → Bool
  | Event.modelTest _ _ dir => dir != "A2B"
  | _ => false

/-- Directory and filename of a checkpoint save event. -/
def saveEventData : Event → Option (String × String)
  | Event.modelSave d f => some (d, f)
  | _ => none

/-- The distinct checkpoint filenames written during a trace. -/
def savedFilenames (tr : List Event) : List String :=
  ((tr.filterMap saveEventData).map Prod.snd).dedup

/-- The number of training steps executed strictly before epoch `e` — the
quantity the spec calls the running iteration count across epochs. -/
def stepsExecutedBefore (cfg : TrainConfig) (ns : ℕ → ℕ) (valFiles : List String)
    (e : ℕ) : ℕ :=
  ((epochsTrace cfg ns valFiles e).filter isTrainStepEv).length

/-! ## Command-line surface (train.py lines 139-176) -/

/-- One `parser.add_argument` call: the flag, whether it was declared
required, and its declared default.  `--num_f` (line 152) is the only option
declared with neither `required=True` nor a `default`. -/
structure ArgSpec where
  flag : String
  required : Bool
  dflt : Option String
deriving DecidableEq

/-- The ten `add_argument` calls of lines 152-161, in source order. -/
def trainArgSpecs : List ArgSpec :=
  [{ flag := "--num_f", required := false, dflt := none },
   { flag := "--train_A_dir", required := false, dflt := some "./data/training/NEUTRAL" },
   { flag := "--train_B_dir", required := false, dflt := some "./data/training/SURPRISE" },
   { flag := "--model_dir", required := false, dflt := some "./model/neutral_to_surprise_mceps" },
   { flag := "--model_name", required := false, dflt := some "neutral_to_surprise_mceps.ckpt" },
   { flag := "--random_seed", required := false, dflt := some "0" },
   { flag := "--validation_A_dir", required := false, dflt := some "./data/evaluation_all/NEUTRAL" },
   { flag := "--validation_B_dir", required := false, dflt := some "./data/evaluation_all/SURPRISE" },
   { flag := "--output_dir", required := false, dflt := some "./validation_output" },
   { flag := "--tensorboard_log_dir", required := false, dflt := some "./log" }]

/-- Look up a flag's value on the command line. -/
def lookupArg (cmdline : List (String × String)) (flag : String) : Option String :=
  (cmdline.find? (fun p => p.1 == flag)).map Prod.snd

/-- argparse parsing: it errors exactly when a required option is missing;
otherwise every option resolves to its supplied value or, failing that, to
its declared default (`None` for `--num_f`). -/
def parseArgs (cmdline : List (String × String)) :
    Except String (List (String × Option String)) :=
  if trainArgSpecs.all (fun s => !s.required || (lookupArg cmdline s.flag).isSome) then
    Except.ok (trainArgSpecs.map (fun s => (s.flag, (lookupArg cmdline s.flag).orElse (fun _ => s.dflt))))
  else
    Except.error "missing required arguments"

/-- Line 171: a validation directory argument equal to the string none,
case-insensitively, becomes Python `None`. -/
def parseValidationDir (s : String) : Option String :=
  if s.toLower = "none" then none else some s

/-! ## Waveform samples and np.nan_to_num (train.py line 134) -/

/-- A symbolic IEEE-754 double: either a finite value (modelled exactly as a
rational) or one of the non-finite values NaN, positive infinity, negative
infinity. -/
inductive Sample where
  | finite (val : ℚ)
  | nan
  | posInf
  | negInf
deriving DecidableEq

/-- The largest finite IEEE-754 double, (2^53 - 1) * 2^971. -/
def float64Max : ℚ := (2 ^ 53 - 1) * 2 ^ 971

/-- `np.nan_to_num` with default arguments: NaN becomes 0.0, positive
infinity becomes the largest finite double, negative infinity becomes the
most negative finite double; finite values pass through. -/
def nan_to_num : Sample → Sample
  | Sample.finite v => Sample.finite v
  | Sample.nan => Sample.finite 0
  | Sample.posInf => Sample.finite float64Max
  | Sample.negInf => Sample.finite (-float64Max)

def isFiniteSample : Sample → Bool
  | Sample.finite _ => true
  | _ => false

/-- The waveform handed to `sf.write` at line 135 is the elementwise
`np.nan_to_num` of the resynthesized waveform (line 134). -/
def validationWrittenWaveform (synthesized : List Sample) : List Sample :=
  synthesized.map nan_to_num

/-! ## Concrete instances used by counterexamples and witnesses -/

/-- The configuration built from all the argparse defaults of lines 142-150,
with `n_frames := 128`. -/
def defaultConfig : TrainConfig :=
  { train_A_dir := "./data/training/NEUTRAL"
    train_B_dir := "./data/training/SURPRISE"
    model_dir := "./model/neutral_to_surprise_mceps"
    model_name := "neutral_to_surprise_mceps.ckpt"
    random_seed := 0
    validation_A_dir := some "./data/evaluation_all/NEUTRAL"
    validation_B_dir := some "./data/evaluation_all/SURPRISE"
    output_dir := "./validation_output"
    tensorboard_log_dir := "./log"
    n_frames := 128 }

/-- A hypothetical per-epoch segment-count sequence that differs between
epochs: 2 segments in epoch 0, 3 in every later epoch. -/
def nsVarying : ℕ → ℕ := fun e => if e = 0 then 2 else 3

/-- The default configuration with validation disabled (the command line
passed none for the validation-A directory). -/
def noValConfig : TrainConfig := { defaultConfig with validation_A_dir := none }

/-! ### Schedule lemmas -/

theorem schedUpdate_eq_of_le (c : ℕ) (s : SchedState) (h : c ≤ 100000) :
    schedUpdate c s = s := by
  have h' : ¬ c > 100000 := by omega
  simp [schedUpdate, h']

theorem schedUpdate_identity_of_gt (c : ℕ) (s : SchedState) (h : c > 100000) :
    (schedUpdate c s).identity_weight = 1/2 := by
  simp [schedUpdate, h]

theorem schedUpdate_floor (c : ℕ) (s : SchedState)
    (hg : lr_floor ≤ s.generator_lr) (hd : lr_floor ≤ s.discriminator_lr) :
    lr_floor ≤ (schedUpdate c s).generator_lr ∧
      lr_floor ≤ (schedUpdate c s).discriminator_lr := by
  by_cases h : c > 100000
  · simp [schedUpdate, h, le_max_left]
  · simp [schedUpdate, h, hg, hd]

theorem schedPairs_fst_mem : ∀ (cs : List ℕ) (s : SchedState) (p : ℕ × SchedState),
    p ∈ schedPairs cs s → p.1 ∈ cs := by
  intro cs
  induction cs with
  | nil => intro s p hp; simp [schedPairs] at hp
  | cons c cs ih =>
      intro s p hp
      simp only [schedPairs, List.mem_cons] at hp ⊢
      rcases hp with hp | hp
      · left; rw [hp]
      · right; exact ih _ _ hp

theorem schedPairs_snd_update : ∀ (cs : List ℕ) (s : SchedState) (p : ℕ × SchedState),
    p ∈ schedPairs cs s → ∃ s', p.2 = schedUpdate p.1 s' := by
  intro cs
  induction cs with
  | nil => intro s p hp; simp [schedPairs] at hp
  | cons c cs ih =>
      intro s p hp
      simp only [schedPairs, List.mem_cons] at hp
      rcases hp with hp | hp
      · exact ⟨s, by rw [hp]⟩
      · exact ih _ _ hp

theorem schedPairs_floor : ∀ (cs : List ℕ) (s : SchedState),
    lr_floor ≤ s.generator_lr → lr_floor ≤ s.discriminator_lr →
    ∀ p ∈ schedPairs cs s,
      lr_floor ≤ p.2.generator_lr ∧ lr_floor ≤ p.2.discriminator_lr := by
  intro cs
  induction cs with
  | nil => intro s _ _ p hp; simp [schedPairs] at hp
  | cons c cs ih =>
      intro s hg hd p hp
      simp only [schedPairs, List.mem_cons] at hp
      have hstep := schedUpdate_floor c s hg hd
      rcases hp with hp | hp
      · rw [hp]; exact hstep
      · exact ih _ hstep.1 hstep.2 p hp

/-- On a strictly increasing counter list, an iteration whose counter has not
yet passed 100000 still sees the untouched scheduler state. -/
theorem schedPairs_of_sorted : ∀ (cs : List ℕ) (s : SchedState),
    List.Pairwise (· < ·) cs →
    ∀ p ∈ schedPairs cs s, p.1 ≤ 100000 → p.2 = s := by
  intro cs
  induction cs with
  | nil => intro s _ p hp; simp [schedPairs] at hp
  | cons c cs ih =>
      intro s hpw p hp hle
      simp only [schedPairs, List.mem_cons] at hp
      rcases List.pairwise_cons.mp hpw with ⟨hlt, hpw'⟩
      rcases hp with hp | hp
      · rw [hp]
        subst hp
        exact schedUpdate_eq_of_le _ _ hle
      · by_cases hc : c ≤ 100000
        · rw [schedUpdate_eq_of_le c s hc] at hp
          exact ih s hpw' p hp hle
        · exfalso
          have := hlt p.1 (schedPairs_fst_mem _ _ _ hp)
          omega

/-- With a constant per-epoch sample count the counter sequence is just an
initial segment of the naturals. -/
theorem iterationCounters_const (N : ℕ) : ∀ E : ℕ,
    iterationCounters (fun _ => N) E = List.range (N * E) := by
  intro E
  induction E with
  | zero => simp [iterationCounters]
  | succ e ih =>
      have hrange : List.range (N * (e + 1)) =
          List.range (N * e) ++ (List.range N).map (N * e + ·) := by
        rw [Nat.mul_succ, List.range_add]
      rw [iterationCounters, ih, hrange]
      congr 1
      simp [num_iterations, mini_batch_size, Nat.div_one]

/-! ### Trace lemmas -/

theorem isValidationEv_kinds (ev : Event) (h : isValidationEv ev = true) :
    isSavezEv ev = false ∧ isTrainStepEv ev = false ∧ isModelLoadEv ev = false ∧
      saveEventData ev = none := by
  cases ev <;>
    simp_all [isValidationEv, isSavezEv, isTrainStepEv, isModelLoadEv, saveEventData]

theorem mem_validationPassTrace_forms (cfg : TrainConfig) (dir : String)
    (valFiles : List String) (e : ℕ) (ev : Event)
    (h : ev ∈ validationPassTrace cfg dir valFiles e) :
    ev = Event.printGeneratingValidation e
      ∨ ∃ f ∈ valFiles,
          ev = Event.loadAudio (osPathJoin dir f)
          ∨ ev = Event.modelTest e f "A2B"
          ∨ ev = Event.sfWrite (osPathJoin (validation_A_output_dir cfg)
              (toString e ++ "_" ++ osPathBasename f)) := by
  simp only [validationPassTrace, List.mem_cons, List.mem_flatten, List.mem_map] at h
  rcases h with h | ⟨l, ⟨f, hf, rfl⟩, hl⟩
  · exact Or.inl h
  · simp only [List.mem_cons, List.not_mem_nil, or_false] at hl
    exact Or.inr ⟨f, hf, hl⟩

theorem validationPassTrace_isValidation (cfg : TrainConfig) (dir : String)
    (valFiles : List String) (e : ℕ) (ev : Event)
    (h : ev ∈ validationPassTrace cfg dir valFiles e) :
    isValidationEv ev = true := by
  rcases mem_validationPassTrace_forms cfg dir valFiles e ev h with
    h | ⟨f, _, h | h | h⟩ <;> subst h <;> rfl

theorem mem_epochValidationTrace (cfg : TrainConfig) (valFiles : List String)
    (e : ℕ) (ev : Event) (h : ev ∈ epochValidationTrace cfg valFiles e) :
    ∃ dir, cfg.validation_A_dir = some dir ∧ e % 5 = 0 ∧
      ev ∈ validationPassTrace cfg dir valFiles e := by
  unfold epochValidationTrace at h
  rcases hv : cfg.validation_A_dir with _ | dir <;> simp only [hv] at h
  · simp at h
  · by_cases h5 : e % 5 = 0
    · rw [if_pos h5] at h
      exact ⟨dir, rfl, h5, h⟩
    · rw [if_neg h5] at h
      simp at h

theorem epochValidationTrace_isValidation (cfg : TrainConfig)
    (valFiles : List String) (e : ℕ) (ev : Event)
    (h : ev ∈ epochValidationTrace cfg valFiles e) : isValidationEv ev = true := by
  obtain ⟨dir, _, _, hmem⟩ := mem_epochValidationTrace cfg valFiles e ev h
  exact validationPassTrace_isValidation cfg dir valFiles e ev hmem

theorem mem_epochTrace_forms (cfg : TrainConfig) (ns : ℕ → ℕ)
    (valFiles : List String) (e : ℕ) (ev : Event)
    (h : ev ∈ epochTrace cfg ns valFiles e) :
    ev = Event.sampleTrainData e
      ∨ (∃ i, i ∈ List.range (ns e / mini_batch_size) ∧
          ev = Event.trainStep e i (num_iterations (ns e) e i))
      ∨ ev = Event.modelSave cfg.model_dir (perEpochCheckpointName cfg)
      ∨ ev ∈ epochValidationTrace cfg valFiles e := by
  simp only [epochTrace, List.mem_cons, List.mem_append, List.mem_map,
    List.mem_singleton, List.not_mem_nil, or_false] at h
  rcases h with h | (⟨i, hi, rfl⟩ | h) | h
  · exact Or.inl h
  · exact Or.inr (Or.inl ⟨i, hi, rfl⟩)
  · exact Or.inr (Or.inr (Or.inl h))
  · exact Or.inr (Or.inr (Or.inr h))

theorem epochTrace_filter_savez (cfg : TrainConfig) (ns : ℕ → ℕ)
    (valFiles : List String) (e : ℕ) :
    (epochTrace cfg ns valFiles e).filter isSavezEv = [] := by
  rw [List.filter_eq_nil_iff]
  intro ev hev
  rcases mem_epochTrace_forms cfg ns valFiles e ev hev with h | ⟨i, _, h⟩ | h | h
  · subst h; simp [isSavezEv]
  · subst h; simp [isSavezEv]
  · subst h; simp [isSavezEv]
  · have := isValidationEv_kinds ev (epochValidationTrace_isValidation cfg valFiles e ev h)
    simp [this.1]

theorem epochTrace_filter_modelLoad (cfg : TrainConfig) (ns : ℕ → ℕ)
    (valFiles : List String) (e : ℕ) :
    (epochTrace cfg ns valFiles e).filter isModelLoadEv = [] := by
  rw [List.filter_eq_nil_iff]
  intro ev hev
  rcases mem_epochTrace_forms cfg ns valFiles e ev hev with h | ⟨i, _, h⟩ | h | h
  · subst h; simp [isModelLoadEv]
  · subst h; simp [isModelLoadEv]
  · subst h; simp [isModelLoadEv]
  · have := isValidationEv_kinds ev (epochValidationTrace_isValidation cfg valFiles e ev h)
    simp [this.2.2.1]

theorem epochTrace_filterMap_save (cfg : TrainConfig) (ns : ℕ → ℕ)
    (valFiles : List String) (e : ℕ) :
    (epochTrace cfg ns valFiles e).filterMap saveEventData =
      [(cfg.model_dir, perEpochCheckpointName cfg)] := by
  have hval : (epochValidationTrace cfg valFiles e).filterMap saveEventData = [] := by
    rw [List.filterMap_eq_nil_iff]
    intro ev hev
    exact (isValidationEv_kinds ev
      (epochValidationTrace_isValidation cfg valFiles e ev hev)).2.2.2
  have hsteps : ((List.range (ns e / mini_batch_size)).map
      (fun i => Event.trainStep e i (num_iterations (ns e) e i))).filterMap
        saveEventData = [] := by
    rw [List.filterMap_eq_nil_iff]
    intro ev hev
    simp only [List.mem_map] at hev
    obtain ⟨i, _, rfl⟩ := hev
    rfl
  simp [epochTrace, List.filterMap_append, hval, hsteps, saveEventData]

theorem epochsTrace_filterMap_save (cfg : TrainConfig) (ns : ℕ → ℕ)
    (valFiles : List String) : ∀ E : ℕ,
    (epochsTrace cfg ns valFiles E).filterMap saveEventData =
      List.replicate E (cfg.model_dir, perEpochCheckpointName cfg) := by
  intro E
  induction E with
  | zero => rfl
  | succ e ih =>
      rw [epochsTrace, List.filterMap_append, ih, epochTrace_filterMap_save,
        List.replicate_succ']

theorem epochsTrace_filter_savez (cfg : TrainConfig) (ns : ℕ → ℕ)
    (valFiles : List String) : ∀ E : ℕ,
    (epochsTrace cfg ns valFiles E).filter isSavezEv = [] := by
  intro E
  induction E with
  | zero => rfl
  | succ e ih =>
      rw [epochsTrace, List.filter_append, ih, epochTrace_filter_savez,
        List.append_nil]

theorem epochsTrace_filter_modelLoad (cfg : TrainConfig) (ns : ℕ → ℕ)
    (valFiles : List String) : ∀ E : ℕ,
    (epochsTrace cfg ns valFiles E).filter isModelLoadEv = [] := by
  intro E
  induction E with
  | zero => rfl
  | succ e ih =>
      rw [epochsTrace, List.filter_append, ih, epochTrace_filter_modelLoad,
        List.append_nil]

theorem mem_epochsTrace (cfg : TrainConfig) (ns : ℕ → ℕ) (valFiles : List String) :
    ∀ (E : ℕ) (ev : Event), ev ∈ epochsTrace cfg ns valFiles E ↔
      ∃ e, e < E ∧ ev ∈ epochTrace cfg ns valFiles e := by
  intro E
  induction E with
  | zero => intro ev; simp [epochsTrace]
  | succ e ih =>
      intro ev
      rw [epochsTrace, List.mem_append, ih]
      constructor
      · rintro (⟨e', he', hm⟩ | hm)
        · exact ⟨e', by omega, hm⟩
        · exact ⟨e, by omega, hm⟩
      · rintro ⟨e', he', hm⟩
        by_cases h : e' = e
        · subst h; exact Or.inr hm
        · exact Or.inl ⟨e', by omega, hm⟩

theorem preTrainTrace_filter_savez (cfg : TrainConfig) :
    (preTrainTrace cfg).filter isSavezEv =
      [Event.savez (osPathJoin cfg.model_dir "logf0s_normalization.npz") statFields,
       Event.savez (osPathJoin cfg.model_dir "mcep_normalization.npz") statFields] := by
  rcases hv : cfg.validation_A_dir with _ | dir <;>
    by_cases hn : cfg.n_frames = 128 <;>
      simp [preTrainTrace, hv, hn, isSavezEv]

theorem preTrainTrace_filter_modelLoad (cfg : TrainConfig) :
    (preTrainTrace cfg).filter isModelLoadEv =
      (if cfg.n_frames ≠ 128 then
        [Event.modelLoad (osPathJoin cfg.model_dir cfg.model_name)]
      else []) := by
  rcases hv : cfg.validation_A_dir with _ | dir <;>
    by_cases hn : cfg.n_frames = 128 <;>
      simp [preTrainTrace, hv, hn, isModelLoadEv]

theorem preTrainTrace_filterMap_save (cfg : TrainConfig) :
    (preTrainTrace cfg).filterMap saveEventData = [] := by
  rcases hv : cfg.validation_A_dir with _ | dir <;>
    by_cases hn : cfg.n_frames = 128 <;>
      simp [preTrainTrace, hv, hn, saveEventData]

theorem preTrainTrace_filter_epochBody (cfg : TrainConfig) :
    (preTrainTrace cfg).filter isEpochBodyEv = [] := by
  rcases hv : cfg.validation_A_dir with _ | dir <;>
    by_cases hn : cfg.n_frames = 128 <;>
      simp [preTrainTrace, hv, hn, isEpochBodyEv]

theorem not_mem_preTrainTrace_of_epochBody (cfg : TrainConfig) (ev : Event)
    (hev : isEpochBodyEv ev = true) : ev ∉ preTrainTrace cfg := by
  intro h
  have hmem : ev ∈ (preTrainTrace cfg).filter isEpochBodyEv :=
    List.mem_filter.mpr ⟨h, hev⟩
  rw [preTrainTrace_filter_epochBody] at hmem
  simp at hmem

theorem pg_mem_validationPassTrace (cfg : TrainConfig) (dir : String)
    (valFiles : List String) (e e' : ℕ) :
    Event.printGeneratingValidation e ∈ validationPassTrace cfg dir valFiles e' ↔
      e = e' := by
  constructor
  · intro h
    rcases mem_validationPassTrace_forms cfg dir valFiles e' _ h with
      h | ⟨f, _, h | h | h⟩
    · injection h
    · injection h
    · injection h
    · injection h
  · rintro rfl
    exact List.mem_cons_self _ _

theorem pg_mem_epochTrace (cfg : TrainConfig) (ns : ℕ → ℕ)
    (valFiles : List String) (e e' : ℕ) :
    Event.printGeneratingValidation e ∈ epochTrace cfg ns valFiles e' ↔
      cfg.validation_A_dir.isSome = true ∧ e' % 5 = 0 ∧ e = e' := by
  constructor
  · intro h
    rcases mem_epochTrace_forms cfg ns valFiles e' _ h with h | ⟨i, _, h⟩ | h | h
    · injection h
    · injection h
    · injection h
    · obtain ⟨dir, hv, h5, hm⟩ := mem_epochValidationTrace cfg valFiles e' _ h
      exact ⟨by simp [hv], h5,
        (pg_mem_validationPassTrace cfg dir valFiles e e').mp hm⟩
  · rintro ⟨hs, h5, rfl⟩
    obtain ⟨dir, hv⟩ := Option.isSome_iff_exists.mp hs
    have hval : Event.printGeneratingValidation e ∈ epochValidationTrace cfg valFiles e := by
      unfold epochValidationTrace
      simp only [hv]
      rw [if_pos h5]
      exact List.mem_cons_self _ _
    exact List.mem_cons_of_mem _ (List.mem_append_right _ hval)

theorem pg_mem_trainTraceWith (numEpochs : ℕ) (cfg : TrainConfig) (ns : ℕ → ℕ)
    (valFiles : List String) (e : ℕ) :
    Event.printGeneratingValidation e ∈ trainTraceWith numEpochs cfg ns valFiles ↔
      cfg.validation_A_dir.isSome = true ∧ e < numEpochs ∧ e % 5 = 0 := by
  rw [trainTraceWith]
  simp only [List.mem_append, List.mem_singleton]
  constructor
  · rintro ((h | h) | h)
    · exact absurd h (not_mem_preTrainTrace_of_epochBody cfg _ rfl)
    · obtain ⟨e', he', hm⟩ := (mem_epochsTrace cfg ns valFiles numEpochs _).mp h
      obtain ⟨hs, h5, rfl⟩ := (pg_mem_epochTrace cfg ns valFiles e e').mp hm
      exact ⟨hs, he', h5⟩
    · injection h
  · rintro ⟨hs, he, h5⟩
    exact Or.inl (Or.inr ((mem_epochsTrace cfg ns valFiles numEpochs _).mpr
      ⟨e, he, (pg_mem_epochTrace cfg ns valFiles e e).mpr ⟨hs, h5, rfl⟩⟩))

theorem epochTrace_steps_length (cfg : TrainConfig) (ns : ℕ → ℕ)
    (valFiles : List String) (e : ℕ) :
    ((epochTrace cfg ns valFiles e).filter isTrainStepEv).length =
      ns e / mini_batch_size := by
  have hval : (epochValidationTrace cfg valFiles e).filter isTrainStepEv = [] := by
    rw [List.filter_eq_nil_iff]
    intro ev hev
    simp [(isValidationEv_kinds ev
      (epochValidationTrace_isValidation cfg valFiles e ev hev)).2.1]
  have hsteps : ((List.range (ns e / mini_batch_size)).map
      (fun i => Event.trainStep e i (num_iterations (ns e) e i))).filter isTrainStepEv =
      (List.range (ns e / mini_batch_size)).map
        (fun i => Event.trainStep e i (num_iterations (ns e) e i)) := by
    rw [List.filter_eq_self]
    intro ev hev
    simp only [List.mem_map] at hev
    obtain ⟨i, _, rfl⟩ := hev
    rfl
  simp [epochTrace, List.filter_append, hval, hsteps, isTrainStepEv]

theorem stepsExecutedBefore_const (cfg : TrainConfig) (N : ℕ)
    (valFiles : List String) : ∀ e : ℕ,
    stepsExecutedBefore cfg (fun _ => N) valFiles e = N / mini_batch_size * e := by
  intro e
  induction e with
  | zero => rfl
  | succ e ih =>
      unfold stepsExecutedBefore at ih ⊢
      rw [epochsTrace, List.filter_append, List.length_append, ih,
        epochTrace_steps_length, Nat.mul_succ]

theorem trainStep_mem_epochTrace (cfg : TrainConfig) (ns : ℕ → ℕ)
    (valFiles : List String) (e i : ℕ) (hi : i < ns e / mini_batch_size) :
    Event.trainStep e i (num_iterations (ns e) e i) ∈ epochTrace cfg ns valFiles e := by
  exact List.mem_cons_of_mem _ (List.mem_append_left _ (List.mem_append_left _
    (List.mem_map.mpr ⟨i, List.mem_range.mpr hi, rfl⟩)))

theorem trainStep_mem_trainTraceWith (numEpochs : ℕ) (cfg : TrainConfig)
    (ns : ℕ → ℕ) (valFiles : List String) (e i : ℕ) (he : e < numEpochs)
    (hi : i < ns e / mini_batch_size) :
    Event.trainStep e i (num_iterations (ns e) e i) ∈
      trainTraceWith numEpochs cfg ns valFiles := by
  rw [trainTraceWith]
  exact List.mem_append_left _ (List.mem_append_right _
    ((mem_epochsTrace cfg ns valFiles numEpochs _).mpr
      ⟨e, he, trainStep_mem_epochTrace cfg ns valFiles e i hi⟩))

theorem not_mem_of_filter_nil {α : Type} {p : α → Bool} {l : List α}
    (h : l.filter p = []) (ev : α) (hev : ev ∈ l) : p ev = false := by
  cases hp : p ev
  · rfl
  · exfalso
    have hmem := List.mem_filter.mpr ⟨hev, hp⟩
    rw [h] at hmem
    simp at hmem

theorem isTrainStepEv_epochBody (ev : Event) (h : isTrainStepEv ev = true) :
    isEpochBodyEv ev = true := by
  cases ev <;> simp_all [isTrainStepEv, isEpochBodyEv]

theorem preTrainTrace_filter_validation (cfg : TrainConfig) :
    (preTrainTrace cfg).filter isValidationEv = [] := by
  rcases hv : cfg.validation_A_dir with _ | dir <;>
    by_cases hn : cfg.n_frames = 128 <;>
      simp [preTrainTrace, hv, hn, isValidationEv]

theorem preTrainTrace_filter_notA2B (cfg : TrainConfig) :
    (preTrainTrace cfg).filter isModelTestNotA2B = [] := by
  rcases hv : cfg.validation_A_dir with _ | dir <;>
    by_cases hn : cfg.n_frames = 128 <;>
      simp [preTrainTrace, hv, hn, isModelTestNotA2B]

theorem epochTrace_filter_notA2B (cfg : TrainConfig) (ns : ℕ → ℕ)
    (valFiles : List String) (e : ℕ) :
    (epochTrace cfg ns valFiles e).filter isModelTestNotA2B = [] := by
  rw [List.filter_eq_nil_iff]
  intro ev hev
  rcases mem_epochTrace_forms cfg ns valFiles e ev hev with h | ⟨i, _, h⟩ | h | h
  · subst h; simp [isModelTestNotA2B]
  · subst h; simp [isModelTestNotA2B]
  · subst h; simp [isModelTestNotA2B]
  · obtain ⟨dir, _, _, hm⟩ := mem_epochValidationTrace cfg valFiles e ev h
    rcases mem_validationPassTrace_forms cfg dir valFiles e ev hm with
      h | ⟨f, _, h | h | h⟩ <;> subst h <;> simp [isModelTestNotA2B]

theorem epochsTrace_filter_notA2B (cfg : TrainConfig) (ns : ℕ → ℕ)
    (valFiles : List String) : ∀ E : ℕ,
    (epochsTrace cfg ns valFiles E).filter isModelTestNotA2B = [] := by
  intro E
  induction E with
  | zero => rfl
  | succ e ih =>
      rw [epochsTrace, List.filter_append, ih, epochTrace_filter_notA2B,
        List.append_nil]

/-- The one-epoch, one-segment run performs a single scheduler step, at
counter 0, and leaves the initial state untouched. -/
theorem schedPairs_one_step :
    schedPairs (iterationCounters (fun _ => 1) 1) initSched = [(0, initSched)] :=
  rfl

/-- In particular the singleton pair is a member of that run's schedule. -/
theorem schedPairs_one_step_mem :
    (0, initSched) ∈ schedPairs (iterationCounters (fun _ => 1) 1) initSched := by
  rw [schedPairs_one_step]
  exact List.mem_cons_self _ _

/-- The trace of `train` never depends on the validation_B_dir field. -/
theorem epochsTrace_validation_B (cfg : TrainConfig) (vB vB' : Option String)
    (ns : ℕ → ℕ) (valFiles : List String) : ∀ E : ℕ,
    epochsTrace { cfg with validation_B_dir := vB } ns valFiles E =
      epochsTrace { cfg with validation_B_dir := vB' } ns valFiles E := by
  intro E
  induction E with
  | zero => rfl
  | succ e ih =>
      rw [epochsTrace, epochsTrace, ih]
      rfl

/-! ## The claims -/

/-- C1: every learning-rate pair handed to `model.train` stays at or above
the floor 0.00001 for every run, however many iterations exceed the
threshold 100000; and at every iteration whose global counter is at most
100000 (in a run whose per-epoch segment count is constant, as deterministic
length-based exclusion over a fixed corpus makes it) both rates still equal
their initial values 0.0002 and 0.0001. -/
theorem claim_c1_learning_rate_schedule :
    (∀ (ns : ℕ → ℕ) (E : ℕ), ∀ p ∈ schedPairs (iterationCounters ns E) initSched,
        lr_floor ≤ p.2.generator_lr ∧ lr_floor ≤ p.2.discriminator_lr)
    ∧ (∀ (N E : ℕ),
        ∀ p ∈ schedPairs (iterationCounters (fun _ => N) E) initSched,
          p.1 ≤ 100000 →
            p.2.generator_lr = generator_learning_rate ∧
              p.2.discriminator_lr = discriminator_learning_rate) := by
  constructor
  · intro ns E p hp
    apply schedPairs_floor _ _ ?_ ?_ p hp
    · norm_num [initSched, lr_floor, generator_learning_rate]
    · norm_num [initSched, lr_floor, discriminator_learning_rate]
  · intro N E p hp hle
    rw [iterationCounters_const] at hp
    rw [schedPairs_of_sorted _ _ (List.pairwise_lt_range _) p hp hle]
    exact ⟨rfl, rfl⟩

/-- Witness for C1: the run with one epoch of one segment, at iteration 0. -/
theorem claim_c1_witness :
    (lr_floor ≤ initSched.generator_lr ∧ lr_floor ≤ initSched.discriminator_lr)
    ∧ (initSched.generator_lr = generator_learning_rate ∧
        initSched.discriminator_lr = discriminator_learning_rate) :=
  ⟨claim_c1_learning_rate_schedule.1 (fun _ => 1) 1 (0, initSched) schedPairs_one_step_mem,
   claim_c1_learning_rate_schedule.2 1 1 (0, initSched) schedPairs_one_step_mem (by decide)⟩

/-- C2: the identity-loss weight handed to `model.train` is exactly the
initial value 5 while the global counter is at most 100000 and exactly 0.5
once it exceeds 100000, with no other value. -/
theorem claim_c2_identity_weight_schedule (N E : ℕ) :
    ∀ p ∈ schedPairs (iterationCounters (fun _ => N) E) initSched,
      p.2.identity_weight = if p.1 ≤ 100000 then lambda_identity else 1/2 := by
  intro p hp
  by_cases hle : p.1 ≤ 100000
  · rw [if_pos hle]
    rw [iterationCounters_const] at hp
    rw [schedPairs_of_sorted _ _ (List.pairwise_lt_range _) p hp hle]
    rfl
  · rw [if_neg hle]
    obtain ⟨s', hs'⟩ := schedPairs_snd_update _ _ p hp
    rw [hs']
    exact schedUpdate_identity_of_gt _ _ (by omega)

/-- Witness for C2: the run with one epoch of one segment, at iteration 0. -/
theorem claim_c2_witness :
    initSched.identity_weight =
      if (0 : ℕ) ≤ 100000 then lambda_identity else 1/2 :=
  claim_c2_identity_weight_schedule 1 1 (0, initSched) schedPairs_one_step_mem

/-- C3 counterexample: if epoch 0 yielded 2 segments and epoch 1 yielded 3,
the counter `n_samples // mini_batch_size * epoch + i` computed for epoch 1,
batch 0 would be 3, while only 2 training steps were executed before it; the
formula is not a running total when the per-epoch segment count varies, so
the claim as stated fails. -/
theorem claim_c3_counterexample :
    Event.trainStep 1 0 (num_iterations (nsVarying 1) 1 0) ∈
        trainTraceWith 2 defaultConfig nsVarying []
      ∧ num_iterations (nsVarying 1) 1 0 ≠
          stepsExecutedBefore defaultConfig nsVarying [] 1 + 0 := by
  refine ⟨by decide, by decide⟩

/-- C3 amended: whenever every epoch yields the same number of segments —
which holds for the shipped `sample_train_data` because the exclusion of
short utterances depends only on the fixed per-utterance frame counts — the
counter of line 85 equals the number of training steps executed in all
previous epochs plus the in-epoch index, i.e. it is a running counter that
is not reset at an epoch boundary. -/
theorem claim_c3_running_counter (numEpochs N : ℕ) (cfg : TrainConfig)
    (valFiles : List String) (e i : ℕ) (he : e < numEpochs)
    (hi : i < N / mini_batch_size) :
    Event.trainStep e i (num_iterations N e i) ∈
        trainTraceWith numEpochs cfg (fun _ => N) valFiles
      ∧ num_iterations N e i =
          stepsExecutedBefore cfg (fun _ => N) valFiles e + i := by
  constructor
  · exact trainStep_mem_trainTraceWith numEpochs cfg _ valFiles e i he hi
  · rw [stepsExecutedBefore_const]
    rfl

/-- Witness for C3 amended: epoch 0, batch 0 of a 1-epoch, 1-segment run. -/
theorem claim_c3_witness :
    Event.trainStep 0 0 (num_iterations 1 0 0) ∈
        trainTraceWith 1 defaultConfig (fun _ => 1) []
      ∧ num_iterations 1 0 0 =
          stepsExecutedBefore defaultConfig (fun _ => 1) [] 0 + 0 :=
  claim_c3_running_counter 1 1 defaultConfig [] 0 0 (by decide) (by decide)

/-- C4: in every run the trace starts with corpus loading, feature
extraction and the four statistics fits, immediately followed by the two
`np.savez` archive writes into the model directory, each carrying the four
named arrays; those two events are the only archive writes of the run, and
no training step occurs anywhere in that prefix — so both archives are
persisted after fitting and before the first training step. -/
theorem claim_c4_stats_persisted (numEpochs : ℕ) (cfg : TrainConfig)
    (ns : ℕ → ℕ) (valFiles : List String) :
    ∃ suffix,
      trainTraceWith numEpochs cfg ns valFiles =
          [Event.loadWavs cfg.train_A_dir, Event.loadWavs cfg.train_B_dir,
           Event.worldEncodeData "A", Event.worldEncodeData "B",
           Event.logf0Statistics "A", Event.logf0Statistics "B",
           Event.codedSpsFit "A", Event.codedSpsFit "B",
           Event.makedirs cfg.model_dir,
           Event.savez (osPathJoin cfg.model_dir "logf0s_normalization.npz") statFields,
           Event.savez (osPathJoin cfg.model_dir "mcep_normalization.npz") statFields]
          ++ suffix
      ∧ (trainTraceWith numEpochs cfg ns valFiles).filter isSavezEv =
          [Event.savez (osPathJoin cfg.model_dir "logf0s_normalization.npz") statFields,
           Event.savez (osPathJoin cfg.model_dir "mcep_normalization.npz") statFields]
      ∧ ([Event.loadWavs cfg.train_A_dir, Event.loadWavs cfg.train_B_dir,
           Event.worldEncodeData "A", Event.worldEncodeData "B",
           Event.logf0Statistics "A", Event.logf0Statistics "B",
           Event.codedSpsFit "A", Event.codedSpsFit "B",
           Event.makedirs cfg.model_dir,
           Event.savez (osPathJoin cfg.model_dir "logf0s_normalization.npz") statFields,
           Event.savez (osPathJoin cfg.model_dir "mcep_normalization.npz") statFields] :
           List Event).filter isTrainStepEv = [] := by
  refine ⟨((match cfg.validation_A_dir with
      | some _ => [Event.makedirs (validation_A_output_dir cfg)]
      | none => ([] : List Event))
    ++ (if cfg.n_frames ≠ 128 then
          [Event.modelLoad (osPathJoin cfg.model_dir cfg.model_name)]
        else [])
    ++ epochsTrace cfg ns valFiles numEpochs
    ++ [Event.modelSave cfg.model_dir cfg.model_name]), ?_, ?_, rfl⟩
  · simp [trainTraceWith, preTrainTrace, List.append_assoc]
  · rw [trainTraceWith, List.filter_append, List.filter_append,
      preTrainTrace_filter_savez, epochsTrace_filter_savez]
    simp [isSavezEv]

/-- C5 counterexample: a 1-epoch run already writes two distinct checkpoint
filenames into the model directory (the n_frames-prefixed per-epoch name at
line 110 and the canonical name at line 137), not exactly one. -/
theorem claim_c5_counterexample :
    (savedFilenames (trainTraceWith 1 defaultConfig (fun _ => 0) [])).length ≠ 1 := by
  decide

/-- C5 amended: every epoch ends with a checkpoint save under the
n_frames-prefixed name and the run ends with one additional save under the
canonical model name, so a 1-epoch run produces exactly two (not one)
distinct checkpoint files under the model directory. -/
theorem claim_c5_checkpoints :
    (∀ (numEpochs : ℕ) (cfg : TrainConfig) (ns : ℕ → ℕ) (valFiles : List String),
        (trainTraceWith numEpochs cfg ns valFiles).filterMap saveEventData =
          List.replicate numEpochs (cfg.model_dir, perEpochCheckpointName cfg)
            ++ [(cfg.model_dir, cfg.model_name)])
    ∧ (savedFilenames (trainTraceWith 1 defaultConfig (fun _ => 0) [])).length = 2 := by
  constructor
  · intro numEpochs cfg ns valFiles
    rw [trainTraceWith, List.filterMap_append, List.filterMap_append,
      preTrainTrace_filterMap_save, epochsTrace_filterMap_save]
    simp [saveEventData]
  · decide

/-- C6: a validation pass happens in a run exactly when a validation source
directory is configured and the epoch index is a multiple of 5 (hence in
particular at epoch 0); the command-line value none, case-insensitively,
parses to an unconfigured validation directory; and with validation
unconfigured the 500-epoch run contains no validation event at all. -/
theorem claim_c6_validation_schedule :
    (∀ (numEpochs : ℕ) (cfg : TrainConfig) (ns : ℕ → ℕ) (valFiles : List String)
        (e : ℕ),
        Event.printGeneratingValidation e ∈ trainTraceWith numEpochs cfg ns valFiles ↔
          cfg.validation_A_dir.isSome = true ∧ e < numEpochs ∧ e % 5 = 0)
    ∧ (∀ s : String, parseValidationDir s = none ↔ s.toLower = "none")
    ∧ (∀ (cfg : TrainConfig) (ns : ℕ → ℕ) (valFiles : List String),
        cfg.validation_A_dir = none →
          ∀ ev ∈ trainTrace cfg ns valFiles, isValidationEv ev = false) := by
  refine ⟨pg_mem_trainTraceWith, ?_, ?_⟩
  · intro s
    unfold parseValidationDir
    by_cases h : s.toLower = "none" <;> simp [h]
  · intro cfg ns valFiles hnone ev hev
    simp only [trainTrace, trainTraceWith, List.mem_append, List.mem_singleton] at hev
    rcases hev with (h | h) | h
    · exact not_mem_of_filter_nil (preTrainTrace_filter_validation cfg) ev h
    · obtain ⟨e, _, hm⟩ := (mem_epochsTrace cfg ns valFiles _ ev).mp h
      rcases mem_epochTrace_forms cfg ns valFiles e ev hm with h | ⟨i, _, h⟩ | h | h
      · subst h; rfl
      · subst h; rfl
      · subst h; rfl
      · obtain ⟨dir, hdir, _, _⟩ := mem_epochValidationTrace cfg valFiles e ev h
        rw [hnone] at hdir
        exact absurd hdir (by simp)
    · subst h; rfl

/-- Witness for C6: with validation unconfigured, the first trace event of
the run is a corpus load and is not a validation event. -/
theorem claim_c6_witness :
    isValidationEv (Event.loadWavs "./data/training/NEUTRAL") = false :=
  claim_c6_validation_schedule.2.2 noValConfig (fun _ => 0) [] rfl
    (Event.loadWavs "./data/training/NEUTRAL")
    (List.mem_append_left _ (List.mem_append_left _ (List.mem_append_left _
      (List.mem_append_left _ (List.mem_cons_self _ _)))))

/-- C7 counterexample: a resynthesized waveform holding a positive infinity
is written as the largest finite double, not as zero, so non-finite samples
are not all replaced with zero as claimed. -/
theorem claim_c7_counterexample :
    validationWrittenWaveform [Sample.posInf] = [Sample.finite float64Max]
      ∧ Sample.finite float64Max ≠ Sample.finite 0 := by
  refine ⟨rfl, ?_⟩
  simp only [ne_eq, Sample.finite.injEq]
  norm_num [float64Max]

/-- C7 amended: before being written, the resynthesized waveform is mapped
through `np.nan_to_num`, which replaces NaN with zero and the infinities
with the extreme finite doubles; hence every written sample is finite and a
non-finite sample never aborts the validation pass. -/
theorem claim_c7_sanitized_output (synthesized : List Sample) :
    (∀ s ∈ validationWrittenWaveform synthesized, isFiniteSample s = true)
      ∧ nan_to_num Sample.nan = Sample.finite 0
      ∧ nan_to_num Sample.posInf = Sample.finite float64Max
      ∧ nan_to_num Sample.negInf = Sample.finite (-float64Max) := by
  refine ⟨?_, rfl, rfl, rfl⟩
  intro s hs
  simp only [validationWrittenWaveform, List.mem_map] at hs
  obtain ⟨x, _, rfl⟩ := hs
  cases x <;> rfl

/-- Witness for C7 amended: the sanitized image of a NaN sample is finite. -/
theorem claim_c7_witness :
    isFiniteSample (Sample.finite 0) = true :=
  (claim_c7_sanitized_output [Sample.nan]).1 (Sample.finite 0) (by decide)

/-- C8: the checkpoint load events of a run are exactly one load from
model_dir joined with the canonical model name when `n_frames` differs from
128 and none otherwise, and any such load sits in the pre-loop prefix, which
contains no epoch-body event — so it happens once, at startup, before the
first epoch. -/
theorem claim_c8_checkpoint_load (numEpochs : ℕ) (cfg : TrainConfig)
    (ns : ℕ → ℕ) (valFiles : List String) :
    ∃ suffix,
      (trainTraceWith numEpochs cfg ns valFiles).filter isModelLoadEv =
          (if cfg.n_frames ≠ 128 then
            [Event.modelLoad (osPathJoin cfg.model_dir cfg.model_name)]
          else [])
      ∧ trainTraceWith numEpochs cfg ns valFiles = preTrainTrace cfg ++ suffix
      ∧ (preTrainTrace cfg).filter isModelLoadEv =
          (if cfg.n_frames ≠ 128 then
            [Event.modelLoad (osPathJoin cfg.model_dir cfg.model_name)]
          else [])
      ∧ suffix.filter isModelLoadEv = []
      ∧ (preTrainTrace cfg).filter isEpochBodyEv = [] := by
  refine ⟨epochsTrace cfg ns valFiles numEpochs
      ++ [Event.modelSave cfg.model_dir cfg.model_name],
    ?_, by simp [trainTraceWith, List.append_assoc],
    preTrainTrace_filter_modelLoad cfg, ?_, preTrainTrace_filter_epochBody cfg⟩
  · rw [trainTraceWith, List.filter_append, List.filter_append,
      preTrainTrace_filter_modelLoad, epochsTrace_filter_modelLoad]
    simp [isModelLoadEv]
  · rw [List.filter_append, epochsTrace_filter_modelLoad]
    simp [isModelLoadEv]

/-- C9: the `--num_f` option is declared with neither `required=True` nor a
default, so argparse accepts a command line without it — parsing succeeds
and `--num_f` resolves to `None` instead of failing at startup — and the
very first action of every `train` run is loading the training-A corpus,
before anything examines the frame length. -/
theorem claim_c9_num_f_optional :
    parseArgs [] = Except.ok (trainArgSpecs.map (fun s => (s.flag, s.dflt)))
      ∧ (trainArgSpecs.map (fun s => (s.flag, s.dflt))).head? =
          some ("--num_f", none)
      ∧ (∀ (numEpochs : ℕ) (cfg : TrainConfig) (ns : ℕ → ℕ)
            (valFiles : List String),
          (trainTraceWith numEpochs cfg ns valFiles).head? =
            some (Event.loadWavs cfg.train_A_dir)) := by
  refine ⟨rfl, rfl, ?_⟩
  intro numEpochs cfg ns valFiles
  rfl

/-- C10: the trace of `train` is literally invariant under changing the
validation_B_dir argument — it is received but never read, so no archive,
checkpoint or validation output depends on it — and no model inference in a
direction other than A2B ever occurs. -/
theorem claim_c10_validation_B_ignored :
    (∀ (numEpochs : ℕ) (cfg : TrainConfig) (ns : ℕ → ℕ) (valFiles : List String)
        (vB vB' : Option String),
        trainTraceWith numEpochs { cfg with validation_B_dir := vB } ns valFiles =
          trainTraceWith numEpochs { cfg with validation_B_dir := vB' } ns valFiles)
    ∧ (∀ (numEpochs : ℕ) (cfg : TrainConfig) (ns : ℕ → ℕ) (valFiles : List String),
        (trainTraceWith numEpochs cfg ns valFiles).filter isModelTestNotA2B = []) := by
  constructor
  · intro numEpochs cfg ns valFiles vB vB'
    rw [trainTraceWith, trainTraceWith,
      epochsTrace_validation_B cfg vB vB' ns valFiles numEpochs]
    rfl
  · intro numEpochs cfg ns valFiles
    rw [trainTraceWith, List.filter_append, List.filter_append,
      preTrainTrace_filter_notA2B, epochsTrace_filter_notA2B]
    simp [isModelTestNotA2B]

end EVC
